import Mathlib

/-!
Verification of the markdown-to-post pipeline in `tumblr_post.py`
(python_tumblr_poster).

The program is embedded shallowly: Python strings become `List Char`, the
regex searches of `_extract_image_info` and `_extract_links` become
explicit scanning functions with Python's leftmost / greedy-with-
backtracking semantics, dictionaries built by insertion become
association lists, and the one fallible operation
(`parse_markdown_file` raising `ValueError`) becomes `Except`.
-/

set_option autoImplicit false

namespace TumblrPost

/-- Python strings are modelled as lists of characters. -/
abbrev Str := List Char

/-- Conversion from a Lean string literal to the model type. -/
def str (s : String) : Str := s.data

/-- Characters treated as whitespace by Python's `str.strip` / `str.split`
(ASCII fragment: space, tab, newline, carriage return, vertical tab,
form feed). -/
def isPySpace (c : Char) : Bool :=
  c = ' ' || c = '\t' || c = '\n' || c = '\r' || c = Char.ofNat 11 || c = Char.ofNat 12

/-- Python `str.rstrip()`: drop trailing whitespace. -/
def rstripSp (l : Str) : Str := (l.reverse.dropWhile isPySpace).reverse

/-- Python `str.strip()`: drop leading and trailing whitespace. -/
def pyStrip (l : Str) : Str := rstripSp (l.dropWhile isPySpace)

/-- Helper for Python `str.split()` (no separator): `acc` holds the
current word reversed; whitespace runs end words, empty words are
discarded. -/
def pySplitAux : Str → Str → List Str
  | [], acc => if acc = [] then [] else [acc.reverse]
  | c :: t, acc =>
    if isPySpace c then
      if acc = [] then pySplitAux t [] else acc.reverse :: pySplitAux t []
    else pySplitAux t (c :: acc)

/-- Python `str.split()` with no argument: split on whitespace runs,
returning no empty tokens. -/
def pySplit (l : Str) : List Str := pySplitAux l []

/-- Python `f.readlines()` on the file's text: split after every newline,
keeping the newline at the end of each line; a final fragment without a
newline is kept, an empty final fragment is not. -/
def readlinesAux : Str → Str → List Str
  | [], acc => if acc = [] then [] else [acc.reverse]
  | c :: t, acc =>
    if c = '\n' then (acc.reverse ++ ['\n']) :: readlinesAux t []
    else readlinesAux t (c :: acc)

/-- The list of lines of the file text, as Python `readlines` yields them. -/
def readlines (text : Str) : List Str := readlinesAux text []

/-- Cleaning of one hashtag token: `tag.lstrip("#").strip()`. -/
def cleanTag (tag : Str) : Str := pyStrip (tag.dropWhile (fun c => c = '#'))

/-- `TumblrPoster._parse_hashtags`: split the hashtags line on whitespace,
strip leading `#` and surrounding whitespace from each token, keep the
non-empty results in order (the source accumulates with `tags.append`). -/
def parse_hashtags (hashtags_line : Str) : List Str :=
  if hashtags_line = [] then []
  else
    (pySplit hashtags_line).foldl
      (fun tags tag =>
        let clean_tag := cleanTag tag
        if clean_tag ≠ [] then tags ++ [clean_tag] else tags)
      []

/-- First success of `f` over a list of candidates, in order (regex
backtracking tries alternatives in order and commits to the first hit). -/
def firstSome {α β : Type} (f : α → Option β) : List α → Option β
  | [] => none
  | a :: t =>
    match f a with
    | some b => some b
    | none => firstSome f t

/-- All ways to split `l` into a (possibly empty) block of characters
satisfying `p` followed by the rest, longest block first: the
candidate list a greedy `[^x]*` explores. -/
def greedySplits (p : Char → Bool) (l : Str) : List (Str × Str) :=
  let w := l.takeWhile p
  let r := l.dropWhile p
  (List.range (w.length + 1)).map (fun i => (w.take (w.length - i), w.drop (w.length - i) ++ r))

/-- As `greedySplits` but the block must be non-empty: the candidate list a
greedy `[^x]+` explores. -/
def greedySplits1 (p : Char → Bool) (l : Str) : List (Str × Str) :=
  let w := l.takeWhile p
  let r := l.dropWhile p
  (List.range w.length).map (fun i => (w.take (w.length - i), w.drop (w.length - i) ++ r))

/-- Literal match: consume the pattern characters or fail. -/
def litMatch : Str → Str → Option Str
  | [], l => some l
  | _ :: _, [] => none
  | p :: ps, c :: cs => if c = p then litMatch ps cs else none

/-- The two quote characters of the regex class used for attribute values
(double quote, and single quote written as `Char.ofNat 39`). -/
def isQuoteCh (c : Char) : Bool := c = '"' || c = Char.ofNat 39

/-- Regex fragment `["\x27]([^"\x27]*)["\x27]`: an opening quote, the
(greedy, deterministic) run of non-quote characters, a closing quote.
Returns the captured value and the rest of the input. -/
def attrValue (r : Str) : Option (Str × Str) :=
  match r with
  | q :: r1 =>
    if isQuoteCh q then
      let v := r1.takeWhile (fun c => !(isQuoteCh c))
      match r1.dropWhile (fun c => !(isQuoteCh c)) with
      | _ :: r2 => some (v, r2)
      | [] => none
    else none
  | [] => none

/-- Regex fragment `[^>]*>` closing an HTML tag: the run of non-`>`
characters then the literal `>`. -/
def tagClose (r : Str) : Bool :=
  match r.dropWhile (fun c => c ≠ '>') with
  | '>' :: _ => true
  | _ => false

/-- Match of the markdown image pattern of `_extract_image_info`,
anchored at the start of `l`. Pattern `!\[([^\]]*)\]\(([^)]+)\)`;
returns `(alt, url)` (groups 1 and 2). Both character classes exclude
the character that follows them, so greedy matching is deterministic. -/
def mdImgMatchAt : Str → Option (Str × Str)
  | '!' :: '[' :: r =>
    let alt := r.takeWhile (fun c => c ≠ ']')
    match r.dropWhile (fun c => c ≠ ']') with
    | ']' :: '(' :: r2 =>
      let url := r2.takeWhile (fun c => c ≠ ')')
      match url, r2.dropWhile (fun c => c ≠ ')') with
      | _ :: _, ')' :: _ => some (alt, url)
      | _, _ => none
    | _ => none
  | _ => none

/-- Match of the first HTML image pattern of `_extract_image_info`,
anchored at the start. Pattern
`<img[^>]+src=["\x27]([^"\x27]+)["\x27][^>]*alt=["\x27]([^"\x27]*)["\x27][^>]*>`;
returns `(url, alt)` (groups 1 and 2). The two `[^>]` blocks backtrack,
longest first, exactly as the regex engine does. -/
def htmlImg1MatchAt : Str → Option (Str × Str)
  | '<' :: 'i' :: 'm' :: 'g' :: r =>
    firstSome
      (fun pr =>
        match litMatch (str "src=") pr.2 with
        | none => none
        | some r1 =>
          match attrValue r1 with
          | none => none
          | some (url, r2) =>
            match url with
            | [] => none
            | _ :: _ =>
              firstSome
                (fun pr2 =>
                  match litMatch (str "alt=") pr2.2 with
                  | none => none
                  | some r3 =>
                    match attrValue r3 with
                    | none => none
                    | some (alt, r4) =>
                      if tagClose r4 then some (url, alt) else none)
                (greedySplits (fun c => c ≠ '>') r2))
      (greedySplits1 (fun c => c ≠ '>') r)
  | _ => none

/-- Match of the second HTML image pattern of `_extract_image_info`
(alt before src), anchored at the start. Pattern
`<img[^>]+alt=["\x27]([^"\x27]*)["\x27][^>]*src=["\x27]([^"\x27]+)["\x27][^>]*>`;
returns `(alt, url)` (groups 1 and 2). -/
def htmlImg2MatchAt : Str → Option (Str × Str)
  | '<' :: 'i' :: 'm' :: 'g' :: r =>
    firstSome
      (fun pr =>
        match litMatch (str "alt=") pr.2 with
        | none => none
        | some r1 =>
          match attrValue r1 with
          | none => none
          | some (alt, r2) =>
            firstSome
              (fun pr2 =>
                match litMatch (str "src=") pr2.2 with
                | none => none
                | some r3 =>
                  match attrValue r3 with
                  | none => none
                  | some (url, r4) =>
                    match url with
                    | [] => none
                    | _ :: _ =>
                      if tagClose r4 then some (alt, url) else none)
              (greedySplits (fun c => c ≠ '>') r2))
      (greedySplits1 (fun c => c ≠ '>') r)
  | _ => none

/-- Python `re.search`: try the anchored matcher at every start position,
left to right, and return the first (leftmost) match. -/
def reSearch {α : Type} (m : Str → Option α) : Str → Option α
  | [] => none
  | c :: t =>
    match m (c :: t) with
    | some x => some x
    | none => reSearch m t

/-- Search for the markdown image pattern anywhere in the body. -/
def mdImgSearch (body : Str) : Option (Str × Str) := reSearch mdImgMatchAt body

/-- Search for the src-before-alt HTML image pattern anywhere in the body. -/
def htmlImg1Search (body : Str) : Option (Str × Str) := reSearch htmlImg1MatchAt body

/-- Search for the alt-before-src HTML image pattern anywhere in the body. -/
def htmlImg2Search (body : Str) : Option (Str × Str) := reSearch htmlImg2MatchAt body

/-- `TumblrPoster._extract_image_info`: try the markdown pattern, then the
two HTML patterns, in order; the result mirrors the returned dict as the
pair `(url, alt)`, with both empty when nothing matches. -/
def extract_image_info (body : Str) : Str × Str :=
  match mdImgSearch body with
  | some (alt, url) => (url, alt)
  | none =>
    match htmlImg1Search body with
    | some (url, alt) => (url, alt)
    | none =>
      match htmlImg2Search body with
      | some (alt, url) => (url, alt)
      | none => ([], [])

/-- Match of the link pattern of `_extract_links`, anchored at the start.
Pattern `\[([^\]]+)\]\(([^)]+)\)`; returns `((text, url), rest)` where
`rest` is the input after the match (for `re.findall`'s scan). -/
def linkMatchAt : Str → Option ((Str × Str) × Str)
  | '[' :: t =>
    let txt := t.takeWhile (fun c => c ≠ ']')
    match txt, t.dropWhile (fun c => c ≠ ']') with
    | _ :: _, ']' :: '(' :: r2 =>
      let url := r2.takeWhile (fun c => c ≠ ')')
      match url, r2.dropWhile (fun c => c ≠ ')') with
      | _ :: _, ')' :: rest => some ((txt, url), rest)
      | _, _ => none
    | _, _ => none
  | _ => none

theorem dropWhile_length_le {α : Type} (p : α → Bool) (l : List α) :
    (l.dropWhile p).length ≤ l.length := by
  induction l with
  | nil => simp
  | cons c t ih =>
    by_cases h : p c
    · simpa [List.dropWhile, h] using Nat.le_succ_of_le ih
    · simp [List.dropWhile, h]

theorem linkMatchAt_rest_lt {l rest : Str} {pr : Str × Str}
    (h : linkMatchAt l = some (pr, rest)) : rest.length < l.length := by
  unfold linkMatchAt at h
  split at h
  · dsimp only at h
    split at h
    · split at h
      · rename_i L t0 txts x1 c1 t2 r2 htake hdrop urlv x2 c2 t3 rest2 htake2 hdrop2
        simp only [Option.some.injEq, Prod.mk.injEq] at h
        obtain ⟨⟨-, -⟩, hr⟩ := h
        subst hr
        have h1 := dropWhile_length_le (fun c => c ≠ ')') r2
        rw [hdrop2] at h1
        have h2 := dropWhile_length_le (fun c => c ≠ ']') t0
        rw [hdrop] at h2
        simp only [List.length_cons] at h1 h2 ⊢
        omega
      · exact absurd h (by simp)
    · exact absurd h (by simp)
  · exact absurd h (by simp)

/-- Scan of `re.findall` for `_extract_links`, driven by a fuel
parameter so that it is structurally recursive (hence computable by the
kernel): at each position try the anchored link pattern; on a match
collect the groups and continue after the match, otherwise advance one
character. Each step strictly shortens the input
(`linkMatchAt_rest_lt`), so fuel equal to the input length never runs
out; `linksScanF_fuel` below makes the fuel-irrelevance precise. -/
def linksScanF : Nat → Str → List (Str × Str)
  | 0, _ => []
  | Nat.succ n, l =>
    match linkMatchAt l, l with
    | some (pr, rest), _ => pr :: linksScanF n rest
    | none, [] => []
    | none, _ :: t => linksScanF n t

/-- Any fuel at least the input length computes the same scan. -/
theorem linksScanF_fuel : ∀ (n m : Nat) (l : Str), l.length ≤ n → l.length ≤ m →
    linksScanF n l = linksScanF m l := by
  intro n
  induction n with
  | zero =>
    intro m l hn _
    have hl : l = [] := List.eq_nil_of_length_eq_zero (Nat.le_zero.mp hn)
    subst hl
    cases m with
    | zero => rfl
    | succ m => rfl
  | succ n ih =>
    intro m l hn hm
    cases m with
    | zero =>
      have hl : l = [] := List.eq_nil_of_length_eq_zero (Nat.le_zero.mp hm)
      subst hl
      rfl
    | succ m =>
      show linksScanF (n + 1) l = linksScanF (m + 1) l
      cases hmt : linkMatchAt l with
      | some x =>
        obtain ⟨pr, rest⟩ := x
        have hlt := linkMatchAt_rest_lt hmt
        simp only [linksScanF, hmt]
        rw [ih m rest (by omega) (by omega)]
      | none =>
        cases l with
        | nil => rfl
        | cons c t =>
          simp only [List.length_cons] at hn hm
          simp only [linksScanF, hmt]
          rw [ih m t (by omega) (by omega)]

/-- `TumblrPoster._extract_links`: all `[text](url)` occurrences of the
body, in document order, as `(text, url)` pairs. -/
def extract_links (body : Str) : List (Str × Str) := linksScanF body.length body

/-- The dict returned by `TumblrPoster.parse_markdown_file`. -/
structure PostFields where
  title : Str
  description : Str
  hashtags : List Str
  image_url : Str
  alt_text : Str
  links : List (Str × Str)
deriving DecidableEq, Repr

/-- `TumblrPoster.parse_markdown_file` on the text of an existing file:
split into lines, require at least three, take line 1 stripped as the
title, the hashtags of stripped line 2, and the remaining lines joined
and stripped as the body; extract image info and links from the body.
The `ValueError` of the source becomes the `Except.error` message. -/
def parse_markdown_file (text : Str) : Except Str PostFields :=
  let lines := readlines text
  match lines with
  | l0 :: l1 :: l2 :: rest =>
    let title := pyStrip l0
    let hashtags_line := pyStrip l1
    let body := pyStrip ((l2 :: rest).flatten)
    let hashtags := parse_hashtags hashtags_line
    let image_info := extract_image_info body
    let links := extract_links body
    Except.ok
      { title := title
        description := body
        hashtags := hashtags
        image_url := image_info.1
        alt_text := image_info.2
        links := links }
  | _ =>
    Except.error (str "Markdown file must have at least 3 lines: title, hashtags, and content")

/-- `TumblrPoster.create_post_content`: append the non-empty segments
(description, then image markup, then link markup) and join them with a
blank line, mirroring the source's `content_parts` list and
`"\n\n".join`. The `hashtags` argument is unused, as in the source. -/
def create_post_content (title description image_url alt_text link : Str)
    (hashtags : List Str) : Str :=
  let content_parts : List Str := []
  let content_parts :=
    if description ≠ [] then content_parts ++ [description] else content_parts
  let content_parts :=
    if image_url ≠ [] then
      content_parts ++
        [if alt_text ≠ [] then
           str "<img src=\"" ++ image_url ++ str "\" alt=\"" ++ alt_text ++ str "\">"
         else
           str "![Image](" ++ image_url ++ str ")"]
    else content_parts
  let content_parts :=
    if link ≠ [] then
      content_parts ++
        [if title ≠ [] then
           str "[" ++ title ++ str "](" ++ link ++ str ")"
         else
           str "[Link](" ++ link ++ str ")"]
    else content_parts
  List.intercalate (str "\n\n") content_parts

/-- Values of the outbound post dict: the string-valued fields, or the
tag list. -/
inductive PVal : Type
  | vs (s : Str)
  | vtags (ts : List Str)
deriving DecidableEq, Repr

/-- Lookup in a dict modelled as an association list. -/
def dictGet {β : Type} (k : Str) : List (Str × β) → Option β
  | [] => none
  | (k', v) :: t => if k' = k then some v else dictGet k t

/-- The `post_data` dict assembled by `TumblrPoster.post_text`: always
`type`, `format` and `body` (the body is the description itself when the
input came from a file, otherwise the composed content); `title` added
only when the title is non-empty, `tags` only when the hashtag list is
non-empty. -/
def post_text_data (title description image_url alt_text link : Str)
    (hashtags : List Str) (from_file : Bool) : List (Str × PVal) :=
  let body :=
    if from_file then description
    else create_post_content title description image_url alt_text link hashtags
  let post_data : List (Str × PVal) :=
    [(str "type", PVal.vs (str "text")),
     (str "format", PVal.vs (str "markdown")),
     (str "body", PVal.vs body)]
  let post_data := if title ≠ [] then post_data ++ [(str "title", PVal.vs title)] else post_data
  let post_data :=
    if hashtags ≠ [] then post_data ++ [(str "tags", PVal.vtags hashtags)] else post_data
  post_data

/-- The file-input path of `main`: parse the file; on a parse error the
process exits with status 1 before any call to the publishing client
(`none`), otherwise the fields are forwarded to `post_text` with
`from_file=True` and `link` the url of the first extracted link. -/
def drive_file (text : Str) : Option (List (Str × PVal)) :=
  match parse_markdown_file text with
  | Except.error _ => none
  | Except.ok pf =>
    let link := match pf.links with | [] => [] | lk :: _ => lk.2
    some (post_text_data pf.title pf.description pf.image_url pf.alt_text link pf.hashtags true)

/-- Values of the dict returned by the publishing client: strings, or
the error collection (a list of error dicts with string fields; the
source iterates `response["errors"]`, which per the collaborator
contract is such a list). -/
inductive RVal : Type
  | vs (s : Str)
  | verrs (es : List (List (Str × Str)))
deriving DecidableEq, Repr

/-- A client response: a dict from keys to values. -/
abbrev Resp := List (Str × RVal)

/-- How `TumblrPoster.post_text` classifies a client response. -/
inductive Outcome : Type
  | success (resp : Resp)
  | failure (details : List (Sum Str (List (Str × Str)))) (resp : Resp)
  | unexpected (resp : Resp)
deriving DecidableEq, Repr

/-- The detail surfaced for one error object: `error.get("detail", error)`
gives the `detail` value when present and the error object itself
otherwise. -/
def errorDetail (e : List (Str × Str)) : Sum Str (List (Str × Str)) :=
  match dictGet (str "detail") e with
  | some d => Sum.inl d
  | none => Sum.inr e

/-- The response classification in `TumblrPoster.post_text`: a response
with an `id` key is a success; otherwise one with an `errors` key is a
failure whose details are surfaced one per error; any other shape is the
unexpected-response case. (An `errors` key holding a plain string rather
than an error list is outside the collaborator's response contract; the
branch still classifies it as a failure, with no details modelled, since
the source's iteration is only meaningful on the error list.) -/
def classify_response (r : Resp) : Outcome :=
  match dictGet (str "id") r with
  | some _ => Outcome.success r
  | none =>
    match dictGet (str "errors") r with
    | some (RVal.verrs es) => Outcome.failure (es.map errorDetail) r
    | some (RVal.vs _) => Outcome.failure [] r
    | none => Outcome.unexpected r

/-- The exit code chosen by `main` after `post_text` returns a response:
1 when the response has an `error` or `errors` key, 0 otherwise. -/
def main_exit_code (r : Resp) : Nat :=
  if (dictGet (str "error") r).isSome || (dictGet (str "errors") r).isSome then 1 else 0

/-- The printed state of the process: the model of the observable side
effects a component could have. -/
structure World where
  printed : List Str
deriving DecidableEq, Repr

/-- State-passing form of `create_post_content`: the method reads only
its arguments and builds local values — it writes no attribute, global
or output — so the ambient state passes through unchanged. -/
def create_post_content_st (w : World) (title description image_url alt_text link : Str)
    (hashtags : List Str) : Str × World :=
  (create_post_content title description image_url alt_text link hashtags, w)

/-- The hashtag sequence as the spec words it: the tokens of the line
split on whitespace, each with leading `#` characters and surrounding
whitespace stripped, tokens that become empty discarded, order
preserved. -/
def specHashtags (line : Str) : List Str :=
  (pySplit line).filterMap (fun tok =>
    let cleaned := cleanTag tok
    if cleaned = [] then none else some cleaned)

/-- The image segment as the spec words it: nothing when the image url
is empty, the HTML tag when an alt text is given, the markdown form
with literal alt `Image` otherwise. -/
def imageSegment (image_url alt_text : Str) : Str :=
  if image_url = [] then []
  else if alt_text ≠ [] then
    str "<img src=\"" ++ image_url ++ str "\" alt=\"" ++ alt_text ++ str "\">"
  else str "![Image](" ++ image_url ++ str ")"

/-- The link segment as the spec words it: nothing when the link is
empty, a markdown link with the title as text when the title is
non-empty, and with literal text `Link` otherwise. -/
def linkSegment (title link : Str) : Str :=
  if link = [] then []
  else if title ≠ [] then str "[" ++ title ++ str "](" ++ link ++ str ")"
  else str "[Link](" ++ link ++ str ")"

/-- The input file of the spec's end-to-end example. -/
def c1Input : Str := str "Title\n#a #b\nBody text\n![alt](http://img)\n[go](http://link)"

/-- The fields the Extractor actually produces on the end-to-end example
(the link scan also matches inside the markdown image, so two links come
out). -/
def c1Fields : PostFields :=
  { title := str "Title"
    description := str "Body text\n![alt](http://img)\n[go](http://link)"
    hashtags := [str "a", str "b"]
    image_url := str "http://img"
    alt_text := str "alt"
    links := [(str "alt", str "http://img"), (str "go", str "http://link")] }

/-! ### Helper lemmas -/

theorem pySplitAux_all_space {s : Str} (h : ∀ c ∈ s, isPySpace c) (acc : Str) :
    pySplitAux s acc = if acc = [] then [] else [acc.reverse] := by
  induction s generalizing acc with
  | nil => rfl
  | cons c t ih =>
    have hc : isPySpace c := h c (List.mem_cons_self c t)
    have ht : ∀ x ∈ t, isPySpace x := fun x hx => h x (List.mem_cons_of_mem c hx)
    by_cases ha : acc = [] <;> simp [pySplitAux, hc, ha, ih ht]

theorem pySplitAux_append_space {s : Str} (hs : ∀ c ∈ s, isPySpace c) :
    ∀ (l acc : Str), pySplitAux (l ++ s) acc = pySplitAux l acc := by
  intro l
  induction l with
  | nil =>
    intro acc
    rw [List.nil_append, pySplitAux_all_space hs acc]
    rfl
  | cons c t ih =>
    intro acc
    by_cases hc : isPySpace c <;> by_cases ha : acc = [] <;>
      simp [pySplitAux, hc, ha, ih]

theorem pySplit_dropWhile (l : Str) : pySplit (l.dropWhile isPySpace) = pySplit l := by
  induction l with
  | nil => rfl
  | cons c t ih =>
    by_cases hc : isPySpace c
    · rw [List.dropWhile_cons_of_pos hc]
      rw [ih]
      simp [pySplit, pySplitAux, hc]
    · rw [List.dropWhile_cons_of_neg hc]

theorem rstrip_decomp (l : Str) :
    ∃ s : Str, l = rstripSp l ++ s ∧ ∀ c ∈ s, isPySpace c := by
  refine ⟨(l.reverse.takeWhile isPySpace).reverse, ?_, ?_⟩
  · conv_lhs =>
      rw [← List.reverse_reverse l,
        ← List.takeWhile_append_dropWhile (p := isPySpace) (l := l.reverse)]
    rw [List.reverse_append]
    rfl
  · intro c hc
    rw [List.mem_reverse] at hc
    exact List.mem_takeWhile_imp hc

theorem pySplit_pyStrip (l : Str) : pySplit (pyStrip l) = pySplit l := by
  unfold pyStrip
  obtain ⟨s, hdec, hsp⟩ := rstrip_decomp (l.dropWhile isPySpace)
  calc pySplit (rstripSp (l.dropWhile isPySpace))
      = pySplitAux (rstripSp (l.dropWhile isPySpace) ++ s) [] :=
        (pySplitAux_append_space hsp _ []).symm
    _ = pySplit (l.dropWhile isPySpace) := by rw [← hdec]; rfl
    _ = pySplit l := pySplit_dropWhile l

theorem foldl_tags_eq (ts : List Str) (acc : List Str) :
    ts.foldl (fun tags tag =>
      let clean_tag := cleanTag tag
      if clean_tag ≠ [] then tags ++ [clean_tag] else tags) acc
    = acc ++ ts.filterMap (fun tok =>
        let cleaned := cleanTag tok
        if cleaned = [] then none else some cleaned) := by
  induction ts generalizing acc with
  | nil => simp
  | cons h t ih =>
    rw [List.foldl_cons, ih, List.filterMap_cons]
    by_cases hc : cleanTag h = [] <;> simp [hc]

/-- The hashtag parser of the source, applied as `parse_markdown_file`
applies it (to the stripped line), computes exactly the spec's token
sequence for the raw line: stripping first does not change the
whitespace split. -/
theorem parse_hashtags_pyStrip_eq_spec (line : Str) :
    parse_hashtags (pyStrip line) = specHashtags line := by
  unfold parse_hashtags specHashtags
  by_cases h : pyStrip line = []
  · rw [if_pos h, ← pySplit_pyStrip line, h]
    rfl
  · rw [if_neg h, foldl_tags_eq, pySplit_pyStrip line, List.nil_append]

theorem reSearch_some {α : Type} {m : Str → Option α} {l : Str} {x : α}
    (h : reSearch m l = some x) : ∃ s : Str, m s = some x := by
  induction l with
  | nil => simp [reSearch] at h
  | cons c t ih =>
    unfold reSearch at h
    cases hm : m (c :: t) with
    | some y => simp only [hm] at h; exact ⟨c :: t, by rw [hm, h]⟩
    | none => simp only [hm] at h; exact ih h

/-- A successful markdown-image match has a non-empty url group: the
pattern requires at least one character between the parentheses. -/
theorem mdImgMatchAt_url_ne {l alt url : Str}
    (h : mdImgMatchAt l = some (alt, url)) : url ≠ [] := by
  unfold mdImgMatchAt at h
  split at h
  · dsimp only at h
    split at h
    · split at h
      · rename_i heq1 heq2
        simp only [Option.some.injEq, Prod.mk.injEq] at h
        obtain ⟨-, hu⟩ := h
        subst hu
        rw [heq1]
        exact List.cons_ne_nil _ _
      · exact absurd h (by simp)
    · exact absurd h (by simp)
  · exact absurd h (by simp)

/-- A successful link match has non-empty text and url groups: both
character classes of the pattern carry `+`. -/
theorem linkMatchAt_groups_ne {l rest txt url : Str}
    (h : linkMatchAt l = some ((txt, url), rest)) : txt ≠ [] ∧ url ≠ [] := by
  unfold linkMatchAt at h
  split at h
  · dsimp only at h
    split at h
    · split at h
      · rename_i a1 a2 a3 a4 a5 a6 a7 hTake1 hDrop1 a8 a9 a10 a11 a12 hTake2 hDrop2
        simp only [Option.some.injEq, Prod.mk.injEq] at h
        obtain ⟨⟨ht, hu⟩, -⟩ := h
        subst ht
        subst hu
        constructor
        · rw [hTake1]
          exact List.cons_ne_nil _ _
        · rw [hTake2]
          exact List.cons_ne_nil _ _
      · exact absurd h (by simp)
    · exact absurd h (by simp)
  · exact absurd h (by simp)

theorem linksScanF_mem : ∀ (n : Nat) (l txt url : Str),
    (txt, url) ∈ linksScanF n l → txt ≠ [] ∧ url ≠ [] := by
  intro n
  induction n with
  | zero => intro l txt url h; simp [linksScanF] at h
  | succ n ih =>
    intro l txt url h
    cases hm : linkMatchAt l with
    | some x =>
      obtain ⟨pr, rest⟩ := x
      simp only [linksScanF, hm] at h
      rcases List.mem_cons.mp h with h1 | h1
      · obtain ⟨t2, u2⟩ := pr
        cases h1
        exact linkMatchAt_groups_ne hm
      · exact ih rest txt url h1
    | none =>
      cases l with
      | nil => simp [linksScanF, hm] at h
      | cons c t =>
        simp only [linksScanF, hm] at h
        exact ih t txt url h

/-- Every link the body scan extracts has non-empty text and url. -/
theorem extract_links_mem {body txt url : Str}
    (h : (txt, url) ∈ extract_links body) : txt ≠ [] ∧ url ≠ [] :=
  linksScanF_mem body.length body txt url h

/-- Every markdown image the search finds has a non-empty url. -/
theorem mdImgSearch_url_ne {body alt url : Str}
    (h : mdImgSearch body = some (alt, url)) : url ≠ [] := by
  obtain ⟨s, hs⟩ := reSearch_some h
  exact mdImgMatchAt_url_ne hs


/-! ### Claims -/

/-- C1 counterexample: on the end-to-end example file the links sequence
is not the single `go` link the claim states — the link pattern also
matches inside the markdown image. -/
theorem claim_c1_counterexample :
    ¬ ∃ pf, parse_markdown_file c1Input = Except.ok pf ∧
        pf.links = [(str "go", str "http://link")] := by
  rintro ⟨pf, h1, h2⟩
  rw [show parse_markdown_file c1Input = Except.ok c1Fields from rfl] at h1
  injection h1 with h3
  subst h3
  exact absurd h2 (by decide)

/-- C1 (amended): the end-to-end example yields exactly title `Title`,
hashtags `a`, `b`, the body verbatim, imageUrl `http://img`, imageAlt
`alt`, and the two links `(alt, http://img)` and `(go, http://link)` in
document order. -/
theorem claim_c1_amended : parse_markdown_file c1Input = Except.ok c1Fields := rfl

/-- C2: for every file text of at least 3 lines, the title is line 1
trimmed and the hashtags are the whitespace-split, hash-stripped,
empty-filtered tokens of line 2, order preserved; and the hashtags line
`#a ##b  c` yields `a`, `b`, `c`. -/
theorem claim_c2 :
    (∀ text : Str, 3 ≤ (readlines text).length →
      ∃ pf, parse_markdown_file text = Except.ok pf ∧
        pf.title = pyStrip ((readlines text).getD 0 []) ∧
        pf.hashtags = specHashtags ((readlines text).getD 1 [])) ∧
    parse_hashtags (pyStrip (str "#a ##b  c")) = [str "a", str "b", str "c"] := by
  constructor
  · intro text h
    rcases hrl : readlines text with _ | ⟨l0, _ | ⟨l1, _ | ⟨l2, rest⟩⟩⟩
    · rw [hrl] at h; simp at h
    · rw [hrl] at h; simp at h
    · rw [hrl] at h; simp at h
    · have hparse : parse_markdown_file text = Except.ok
          { title := pyStrip l0
            description := pyStrip ((l2 :: rest).flatten)
            hashtags := parse_hashtags (pyStrip l1)
            image_url := (extract_image_info (pyStrip ((l2 :: rest).flatten))).1
            alt_text := (extract_image_info (pyStrip ((l2 :: rest).flatten))).2
            links := extract_links (pyStrip ((l2 :: rest).flatten)) } := by
        simp only [parse_markdown_file, hrl]
      refine ⟨_, hparse, ?_, ?_⟩
      · rfl
      · exact parse_hashtags_pyStrip_eq_spec l1
  · decide

/-- C2 witness: a concrete 3-line file. -/
theorem claim_c2_witness :
    3 ≤ (readlines (str "T\n#x\nbody")).length ∧
    (∃ pf, parse_markdown_file (str "T\n#x\nbody") = Except.ok pf ∧
      pf.title = pyStrip ((readlines (str "T\n#x\nbody")).getD 0 []) ∧
      pf.hashtags = specHashtags ((readlines (str "T\n#x\nbody")).getD 1 [])) :=
  ⟨by decide, claim_c2.1 (str "T\n#x\nbody") (by decide)⟩

/-- C3: image extraction honors the fixed pattern priority — a markdown
image match wins over the HTML patterns, the src-before-alt HTML match
wins over alt-before-src, and when no pattern matches both the url and
the alt come back empty. -/
theorem claim_c3 (body : Str) :
    (∀ alt url, mdImgSearch body = some (alt, url) →
      extract_image_info body = (url, alt)) ∧
    (mdImgSearch body = none → ∀ url alt, htmlImg1Search body = some (url, alt) →
      extract_image_info body = (url, alt)) ∧
    (mdImgSearch body = none → htmlImg1Search body = none →
      ∀ alt url, htmlImg2Search body = some (alt, url) →
      extract_image_info body = (url, alt)) ∧
    (mdImgSearch body = none → htmlImg1Search body = none → htmlImg2Search body = none →
      extract_image_info body = ([], [])) := by
  refine ⟨?_, ?_, ?_, ?_⟩
  · intro alt url h
    simp [extract_image_info, h]
  · intro h0 url alt h1
    simp [extract_image_info, h0, h1]
  · intro h0 h1 alt url h2
    simp [extract_image_info, h0, h1, h2]
  · intro h0 h1 h2
    simp [extract_image_info, h0, h1, h2]

/-- C3 witness: a body with both a markdown image and an HTML image
yields the markdown one. -/
theorem claim_c3_witness :
    mdImgSearch (str "x ![md](http://m) <img src=\"h\" alt=\"ha\">") =
      some (str "md", str "http://m") ∧
    htmlImg1Search (str "x ![md](http://m) <img src=\"h\" alt=\"ha\">") =
      some (str "h", str "ha") ∧
    extract_image_info (str "x ![md](http://m) <img src=\"h\" alt=\"ha\">") =
      (str "http://m", str "md") :=
  ⟨by decide, by decide,
    (claim_c3 (str "x ![md](http://m) <img src=\"h\" alt=\"ha\">")).1
      (str "md") (str "http://m") (by decide)⟩

/-- C4: fewer than 3 lines raise the malformed-input error and the file
driver never dispatches; 3 or more lines parse successfully with the
body equal to the remaining lines joined and trimmed. -/
theorem claim_c4 (text : Str) :
    ((readlines text).length < 3 →
      parse_markdown_file text =
        Except.error
          (str "Markdown file must have at least 3 lines: title, hashtags, and content") ∧
      drive_file text = none) ∧
    (3 ≤ (readlines text).length →
      ∃ pf, parse_markdown_file text = Except.ok pf ∧
        pf.description = pyStrip ((readlines text).drop 2).flatten) := by
  constructor
  · intro h
    rcases hrl : readlines text with _ | ⟨l0, _ | ⟨l1, _ | ⟨l2, rest⟩⟩⟩
    · have herr : parse_markdown_file text =
          Except.error
            (str "Markdown file must have at least 3 lines: title, hashtags, and content") := by
        simp only [parse_markdown_file, hrl]
      exact ⟨herr, by simp only [drive_file, herr]⟩
    · have herr : parse_markdown_file text =
          Except.error
            (str "Markdown file must have at least 3 lines: title, hashtags, and content") := by
        simp only [parse_markdown_file, hrl]
      exact ⟨herr, by simp only [drive_file, herr]⟩
    · have herr : parse_markdown_file text =
          Except.error
            (str "Markdown file must have at least 3 lines: title, hashtags, and content") := by
        simp only [parse_markdown_file, hrl]
      exact ⟨herr, by simp only [drive_file, herr]⟩
    · rw [hrl] at h
      simp at h
      omega
  · intro h
    rcases hrl : readlines text with _ | ⟨l0, _ | ⟨l1, _ | ⟨l2, rest⟩⟩⟩
    · rw [hrl] at h; simp at h
    · rw [hrl] at h; simp at h
    · rw [hrl] at h; simp at h
    · have hparse : parse_markdown_file text = Except.ok
          { title := pyStrip l0
            description := pyStrip ((l2 :: rest).flatten)
            hashtags := parse_hashtags (pyStrip l1)
            image_url := (extract_image_info (pyStrip ((l2 :: rest).flatten))).1
            alt_text := (extract_image_info (pyStrip ((l2 :: rest).flatten))).2
            links := extract_links (pyStrip ((l2 :: rest).flatten)) } := by
        simp only [parse_markdown_file, hrl]
      exact ⟨_, hparse, rfl⟩

/-- C4 witness: a 2-line file errors without dispatch, a 3-line file
parses. -/
theorem claim_c4_witness :
    (parse_markdown_file (str "one\ntwo") =
      Except.error
        (str "Markdown file must have at least 3 lines: title, hashtags, and content") ∧
     drive_file (str "one\ntwo") = none) ∧
    (∃ pf, parse_markdown_file (str "T\n#x\nbody text") = Except.ok pf ∧
      pf.description = pyStrip ((readlines (str "T\n#x\nbody text")).drop 2).flatten) :=
  ⟨(claim_c4 (str "one\ntwo")).1 (by decide),
   (claim_c4 (str "T\n#x\nbody text")).2 (by decide)⟩



theorem imgHtml_ne (i a : Str) :
    (str "<img src=\"" ++ i ++ str "\" alt=\"" ++ a ++ str "\">") ≠ [] := by
  have h : str "<img src=\"" = '<' :: str "img src=\"" := rfl
  rw [h]
  simp

theorem imgMd_ne (i : Str) : (str "![Image](" ++ i ++ str ")") ≠ [] := by
  have h : str "![Image](" = '!' :: str "[Image](" := rfl
  rw [h]
  simp

theorem linkTitled_ne (t l : Str) : (str "[" ++ t ++ str "](" ++ l ++ str ")") ≠ [] := by
  have h : str "[" = ['['] := rfl
  rw [h]
  simp

theorem linkPlain_ne (l : Str) : (str "[Link](" ++ l ++ str ")") ≠ [] := by
  have h : str "[Link](" = '[' :: str "Link](" := rfl
  rw [h]
  simp

/-- C5: the Composer's concrete segment outputs. -/
theorem claim_c5 :
    create_post_content (str "Hi") [] [] [] (str "http://x") [] = str "[Hi](http://x)" ∧
    create_post_content [] [] (str "http://i") [] [] [] = str "![Image](http://i)" ∧
    create_post_content [] [] (str "http://i") (str "cat") [] [] =
      str "<img src=\"http://i\" alt=\"cat\">" ∧
    (∀ link : Str, link ≠ [] →
      create_post_content [] [] [] [] link [] = str "[Link](" ++ link ++ str ")") := by
  refine ⟨by decide, by decide, by decide, ?_⟩
  intro link hl
  simp [create_post_content, hl, List.intercalate]

/-- C5 witness. -/
theorem claim_c5_witness :
    str "y" ≠ ([] : Str) ∧
    create_post_content [] [] [] [] (str "y") [] = str "[Link](" ++ str "y" ++ str ")" :=
  ⟨by decide, claim_c5.2.2.2 (str "y") (by decide)⟩

/-- C6: the Composer's output is the non-empty segments joined by one
blank line, and with only a link present the output is exactly the link
segment. -/
theorem claim_c6 (title description image_url alt_text link : Str) (hashtags : List Str) :
    create_post_content title description image_url alt_text link hashtags
      = List.intercalate (str "\n\n")
          (([description, imageSegment image_url alt_text,
             linkSegment title link]).filter (fun s => s ≠ [])) ∧
    (description = [] → image_url = [] → link ≠ [] →
      create_post_content title description image_url alt_text link hashtags
        = linkSegment title link) := by
  constructor
  · by_cases hd : description = [] <;> by_cases hi : image_url = [] <;>
      by_cases hl : link = [] <;> by_cases ha : alt_text = [] <;>
      by_cases ht : title = [] <;>
      simp [create_post_content, imageSegment, linkSegment, hd, hi, hl, ha, ht,
        imgHtml_ne, imgMd_ne, linkTitled_ne, linkPlain_ne, List.intercalate]
  · intro hd hi hl
    by_cases ht : title = [] <;>
      simp [create_post_content, linkSegment, hd, hi, hl, ht, List.intercalate]

/-- C6 witness. -/
theorem claim_c6_witness :
    str "u" ≠ ([] : Str) ∧
    create_post_content (str "T") [] [] [] (str "u") [] = linkSegment (str "T") (str "u") :=
  ⟨by decide, (claim_c6 (str "T") [] [] [] (str "u") []).2 rfl rfl (by decide)⟩

end TumblrPost

namespace TumblrPost

/-- C7: the outbound payload always carries type, format and a body,
carries title exactly when the title is non-empty and tags exactly when
the hashtag list is non-empty, and has no other keys. -/
theorem claim_c7 (title description image_url alt_text link : Str)
    (hashtags : List Str) (from_file : Bool) :
    dictGet (str "type")
        (post_text_data title description image_url alt_text link hashtags from_file)
      = some (PVal.vs (str "text")) ∧
    dictGet (str "format")
        (post_text_data title description image_url alt_text link hashtags from_file)
      = some (PVal.vs (str "markdown")) ∧
    (∃ b, dictGet (str "body")
        (post_text_data title description image_url alt_text link hashtags from_file)
      = some (PVal.vs b)) ∧
    ((dictGet (str "title")
        (post_text_data title description image_url alt_text link hashtags from_file)).isSome
      ↔ title ≠ []) ∧
    ((dictGet (str "tags")
        (post_text_data title description image_url alt_text link hashtags from_file)).isSome
      ↔ hashtags ≠ []) ∧
    (∀ k v, (k, v) ∈ post_text_data title description image_url alt_text link hashtags from_file →
      k = str "type" ∨ k = str "format" ∨ k = str "body" ∨ k = str "title" ∨ k = str "tags") := by
  by_cases ht : title = [] <;> by_cases hh : hashtags = [] <;>
    refine ⟨?_, ?_, ?_, ?_, ?_, ?_⟩ <;>
    try simp +decide [post_text_data, dictGet, ht, hh]
  all_goals intro k v hkv
  all_goals tauto

/-- C7 witness. -/
theorem claim_c7_witness :
    str "type" = str "type" ∨ str "type" = str "format" ∨ str "type" = str "body" ∨
      str "type" = str "title" ∨ str "type" = str "tags" :=
  (claim_c7 (str "T") (str "D") [] [] [] [str "x"] false).2.2.2.2.2
    (str "type") (PVal.vs (str "text")) (by decide)

/-- C8: the Composer is deterministic and effect-free: its output does
not depend on the ambient state, the state is returned unchanged, and a
repeated call with identical arguments yields the identical output. -/
theorem claim_c8 (w w' : World) (title description image_url alt_text link : Str)
    (hashtags : List Str) :
    (create_post_content_st w title description image_url alt_text link hashtags).1
      = (create_post_content_st w' title description image_url alt_text link hashtags).1 ∧
    (create_post_content_st w title description image_url alt_text link hashtags).2 = w ∧
    (create_post_content_st
        ((create_post_content_st w title description image_url alt_text link hashtags).2)
        title description image_url alt_text link hashtags).1
      = (create_post_content_st w title description image_url alt_text link hashtags).1 :=
  ⟨rfl, rfl, rfl⟩

/-- C9: a response with an id is a success, one with an errors
collection is a failure with each detail surfaced and a non-zero exit,
any other shape is the unexpected case — but on the empty response the
process exit code is 0, not the non-zero exit the spec requires. -/
theorem claim_c9 :
    (∀ r : Resp, (dictGet (str "id") r).isSome → classify_response r = Outcome.success r) ∧
    (∀ (r : Resp) (es : List (List (Str × Str))),
      dictGet (str "id") r = none →
      dictGet (str "errors") r = some (RVal.verrs es) →
      classify_response r = Outcome.failure (es.map errorDetail) r) ∧
    (∀ r : Resp, dictGet (str "id") r = none → dictGet (str "errors") r = none →
      classify_response r = Outcome.unexpected r) ∧
    (∀ r : Resp, (dictGet (str "errors") r).isSome → main_exit_code r = 1) ∧
    classify_response [] = Outcome.unexpected [] ∧
    main_exit_code [] = 0 := by
  refine ⟨?_, ?_, ?_, ?_, by decide, by decide⟩
  · intro r h
    obtain ⟨v, hv⟩ := Option.isSome_iff_exists.mp h
    simp [classify_response, hv]
  · intro r es h1 h2
    simp [classify_response, h1, h2]
  · intro r h1 h2
    simp [classify_response, h1, h2]
  · intro r h
    simp [main_exit_code, h]

/-- C9 witness. -/
theorem claim_c9_witness :
    classify_response [(str "errors", RVal.verrs [[(str "detail", str "bad")]])] =
      Outcome.failure ([[(str "detail", str "bad")]].map errorDetail)
        [(str "errors", RVal.verrs [[(str "detail", str "bad")]])] :=
  claim_c9.2.1 [(str "errors", RVal.verrs [[(str "detail", str "bad")]])]
    [[(str "detail", str "bad")]] (by decide) (by decide)

/-- C10: an HTML img tag with only one of src and alt matches neither
HTML pattern and yields empty image info, a markdown image needs a
non-empty url, and every extracted link has non-empty text and url. -/
theorem claim_c10 :
    (htmlImg1Search (str "<img src=\"u\">") = none ∧
     htmlImg2Search (str "<img src=\"u\">") = none ∧
     extract_image_info (str "<img src=\"u\">") = ([], []) ∧
     htmlImg1Search (str "<img alt=\"a\">") = none ∧
     htmlImg2Search (str "<img alt=\"a\">") = none ∧
     extract_image_info (str "<img alt=\"a\">") = ([], []) ∧
     extract_image_info (str "![alt]()") = ([], []) ∧
     extract_links (str "[](url)") = []) ∧
    (∀ body alt url : Str, mdImgSearch body = some (alt, url) → url ≠ []) ∧
    (∀ body txt url : Str, (txt, url) ∈ extract_links body → txt ≠ [] ∧ url ≠ []) := by
  refine ⟨by decide, ?_, ?_⟩
  · intro body alt url h
    exact mdImgSearch_url_ne h
  · intro body txt url h
    exact extract_links_mem h

/-- C10 witness. -/
theorem claim_c10_witness :
    str "a" ≠ ([] : Str) ∧ str "b" ≠ ([] : Str) :=
  claim_c10.2.2 (str "[a](b)") (str "a") (str "b") (by decide)

end TumblrPost
